import Mathlib

/-
Verification development for the memterm in-memory terminal emulator.

The Rust sources under scrutiny are shallowly embedded below:
  src/screen.rs          -> the Screen structure and its listener operations
  src/parser.rs          -> the escape-sequence state machine (the coroutine
                            is rendered as an explicit state type PMode)
  src/parser_listener.rs -> the default escape/basic/csi dispatch tables
  src/byte_parser.rs     -> the byte-level UTF-8 feeding layer
  src/control.rs         -> control-byte constants
  src/graphics.rs        -> SGR colour and style tables
  src/modes.rs           -> mode constants

Modelling conventions:
  * Rust HashMap values are association lists with Nat keys; insert replaces
    the old binding, so the list length equals HashMap::len.
  * Rust HashSet values are duplicate-free lists with membership-guarded
    insertion.
  * Rust u32 arithmetic is Nat arithmetic.  Where the source can underflow a
    u32 (cursor_to_column / cursor_to_line with an explicit 0 argument) the
    release-profile two's-complement wrap is written out explicitly as
    (+ 2^32 - 1) mod 2^32; a debug build would abort there instead, which is
    noted at the theorem that touches it.  Expressions of the form
    columns - 1 / lines - 1 keep Nat subtraction: they agree with the source
    for every screen with at least one column and one row, and every claim
    below is about such screens.
  * Rust operations that can panic (the .expect calls on absent sparse rows,
    the erase_in_line panic on an invalid parameter, the byte-slice index in
    ByteParser::feed) return Option; none models the abort.
  * External crates are modelled by named functions whose doc comments say
    exactly what is taken on faith (unicode-width, unicode_normalization,
    encoding_rs).  charset.rs is not under src/, so its tables are modelled
    from the spec, as flagged in their doc comments.
-/

namespace Memterm

/-! ### Association-list model of `HashMap<u32, V>` -/

/-- Lookup in an association list, mirroring `HashMap::get`. -/
def mapGet {β : Type} : List (Nat × β) → Nat → Option β
  | [], _ => none
  | (k', v) :: rest, k => if k' = k then some v else mapGet rest k

/-- Remove a key, mirroring `HashMap::remove` (drops every binding of k). -/
def mapErase {β : Type} : List (Nat × β) → Nat → List (Nat × β)
  | [], _ => []
  | p :: t, k => if p.1 = k then mapErase t k else p :: mapErase t k

/-- Insert-or-replace, mirroring `HashMap::insert`. -/
def mapInsert {β : Type} (m : List (Nat × β)) (k : Nat) (v : β) : List (Nat × β) :=
  (k, v) :: mapErase m k

/-! ### List-with-membership model of `HashSet<u32>` -/

/-- Membership test, mirroring `HashSet::contains`. -/
def setContains (s : List Nat) (x : Nat) : Bool :=
  s.contains x

/-- Insertion, mirroring `HashSet::insert` (no duplicates). -/
def setInsert (s : List Nat) (x : Nat) : List Nat :=
  if s.contains x then s else x :: s

/-- Mirror of `HashSet::extend`. -/
def setExtend (s : List Nat) (xs : List Nat) : List Nat :=
  xs.foldl setInsert s

/-! ### Models of the external crates used by `screen.rs` -/

/-- Modelled from the unicode-width crate (an external dependency of the
source): `UnicodeWidthChar::width`.  Control characters (C0, DEL, C1) yield
none; combining marks and similar zero-width characters yield some 0; the
East Asian Wide and Fullwidth ranges yield some 2; everything else some 1.
Only the Unicode ranges that the claims exercise need to be distinguished,
and all characters appearing in the development fall squarely inside one of
the listed ranges of the real crate. -/
def charWidthOpt (c : Char) : Option Nat :=
  let n := c.toNat
  if n < 0x20 ∨ (0x7F ≤ n ∧ n < 0xA0) then none
  else if (0x300 ≤ n ∧ n ≤ 0x36F) ∨ (0x1AB0 ≤ n ∧ n ≤ 0x1AFF) ∨
          (0x1DC0 ≤ n ∧ n ≤ 0x1DFF) ∨ (0x20D0 ≤ n ∧ n ≤ 0x20FF) ∨
          (0xFE20 ≤ n ∧ n ≤ 0xFE2F) ∨ n = 0x200B then some 0
  else if (0x1100 ≤ n ∧ n ≤ 0x115F) ∨ (0x2E80 ≤ n ∧ n ≤ 0x303E) ∨
          (0x3041 ≤ n ∧ n ≤ 0x33FF) ∨ (0x3400 ≤ n ∧ n ≤ 0x4DBF) ∨
          (0x4E00 ≤ n ∧ n ≤ 0x9FFF) ∨ (0xA000 ≤ n ∧ n ≤ 0xA4CF) ∨
          (0xAC00 ≤ n ∧ n ≤ 0xD7A3) ∨ (0xF900 ≤ n ∧ n ≤ 0xFAFF) ∨
          (0xFE30 ≤ n ∧ n ≤ 0xFE4F) ∨ (0xFF00 ≤ n ∧ n ≤ 0xFF60) ∨
          (0xFFE0 ≤ n ∧ n ≤ 0xFFE6) ∨ (0x20000 ≤ n ∧ n ≤ 0x2FFFD) ∨
          (0x30000 ≤ n ∧ n ≤ 0x3FFFD) then some 2
  else some 1

/-- Modelled from the unicode_normalization crate:
`char::is_combining_mark`.  True exactly on the combining-mark ranges that
matter here; every character the development feeds through this predicate
lies inside or clearly outside the listed ranges of the real crate. -/
def isCombiningMark (c : Char) : Bool :=
  let n := c.toNat
  decide ((0x300 ≤ n ∧ n ≤ 0x36F) ∨ (0x1AB0 ≤ n ∧ n ≤ 0x1AFF) ∨
          (0x1DC0 ≤ n ∧ n ≤ 0x1DFF) ∨ (0x20D0 ≤ n ∧ n ≤ 0x20FF) ∨
          (0xFE20 ≤ n ∧ n ≤ 0xFE2F))

/-- Modelled from the unicode_normalization crate: `str::nfc`.  The source
NFC-normalizes the previous cell before appending a combining mark.  Every
string this development normalizes is a single ASCII character, on which NFC
is the identity, so the model is the identity; no claim depends on a
non-trivial normalization. -/
def nfcStr (s : String) : String := s

/-- Modelled from the spec: `charset.rs` is not under `src/`.  Spec 4.A
defines LAT1 as the Latin-1 table; Latin-1 maps every one of the first 256
code points to itself, so the table is the identity. -/
def LAT1_MAP : Char → Char := fun c => c

/-- Modelled from the spec: the VT100 special-graphics table from the absent
`charset.rs`.  The spec does not list its entries and no claim consults it
(the active charset stays G0 and stays LAT1 in every scenario below); it is
kept as a separate named map whose entries are left as the identity. -/
def VT100_MAP : Char → Char := fun c => c

/-- Modelled from the spec: the US-ASCII table of the absent `charset.rs`
(spec 4.A: "B = US-ASCII identity"). -/
def B_MAP : Char → Char := fun c => c

/-- Modelled from the spec: the DEC graphics table "0" of the absent
`charset.rs`; entries unspecified by the spec, unused by every claim. -/
def DEC0_MAP : Char → Char := fun c => c

/-- Modelled from the spec: the IBM-PC CP437 table "U" of the absent
`charset.rs`; entries unspecified by the spec, unused by every claim. -/
def U_MAP : Char → Char := fun c => c

/-- Modelled from the spec: the German NRC table "K" of the absent
`charset.rs`; entries unspecified by the spec, unused by every claim. -/
def K_MAP : Char → Char := fun c => c

/-- Mirror of `charset::MAPS` (keys per spec 6: `B 0 U K`). -/
def MAPS (code : String) : Option (Char → Char) :=
  if code = "B" then some B_MAP
  else if code = "0" then some DEC0_MAP
  else if code = "U" then some U_MAP
  else if code = "K" then some K_MAP
  else none

/-! ### `modes.rs` constants -/

def LNM : Nat := 20
def IRM : Nat := 4
def DECTCEM : Nat := 25 * 32
def DECSCNM : Nat := 5 * 32
def DECOM : Nat := 6 * 32
def DECAWM : Nat := 7 * 32
def DECCOLM : Nat := 3 * 32

/-! ### `graphics.rs` tables -/

/-- Mirror of `graphics::TEXT`. -/
def textTable (a : Nat) : Option String :=
  match a with
  | 1 => some "+bold"
  | 3 => some "+italics"
  | 4 => some "+underscore"
  | 5 => some "+blink"
  | 7 => some "+reverse"
  | 9 => some "+strikethrough"
  | 22 => some "-bold"
  | 23 => some "-italics"
  | 24 => some "-underscore"
  | 25 => some "-blink"
  | 27 => some "-reverse"
  | 29 => some "-strikethrough"
  | _ => none

/-- Mirror of `graphics::FG_ANSI`. -/
def fgAnsi (a : Nat) : Option String :=
  match a with
  | 30 => some "black"
  | 31 => some "red"
  | 32 => some "green"
  | 33 => some "brown"
  | 34 => some "blue"
  | 35 => some "magenta"
  | 36 => some "cyan"
  | 37 => some "white"
  | 39 => some "default"
  | _ => none

/-- Mirror of `graphics::BG_ANSI`. -/
def bgAnsi (a : Nat) : Option String :=
  match a with
  | 40 => some "black"
  | 41 => some "red"
  | 42 => some "green"
  | 43 => some "brown"
  | 44 => some "blue"
  | 45 => some "magenta"
  | 46 => some "cyan"
  | 47 => some "white"
  | 49 => some "default"
  | _ => none

/-- Mirror of `graphics::FG_AIXTERM`. -/
def fgAix (a : Nat) : Option String :=
  match a with
  | 90 => some "brightblack"
  | 91 => some "brightred"
  | 92 => some "brightgreen"
  | 93 => some "brightbrown"
  | 94 => some "brightblue"
  | 95 => some "brightmagenta"
  | 96 => some "brightcyan"
  | 97 => some "brightwhite"
  | _ => none

/-- Mirror of `graphics::BG_AIXTERM`. -/
def bgAix (a : Nat) : Option String :=
  match a with
  | 100 => some "brightblack"
  | 101 => some "brightred"
  | 102 => some "brightgreen"
  | 103 => some "brightbrown"
  | 104 => some "brightblue"
  | 105 => some "brightmagenta"
  | 106 => some "brightcyan"
  | 107 => some "brightwhite"
  | _ => none

/-- Rust `format!("{:02x}", n)`: lowercase hex, zero-padded to at least two
digits, never truncated. -/
def toHexPad2 (n : Nat) : String :=
  let s := String.mk (Nat.toDigits 16 n)
  if s.length < 2 then "0" ++ s else s

/-- The six cube intensity values of `graphics::FG_BG_256`. -/
def colorCubeVal (i : Nat) : Nat :=
  [0x00, 0x5f, 0x87, 0xaf, 0xd7, 0xff].getD i 0

/-- Mirror of `graphics::FG_BG_256` (entry i of the 256-colour table).  The
source only ever indexes this with i < 16, which is the literal list below;
the cube and grayscale tails follow the construction loop. -/
def fgBg256 (i : Nat) : String :=
  if i < 16 then
    ["000000", "cd0000", "00cd00", "cdcd00", "0000ee", "cd00cd", "00cdcd",
     "e5e5e5", "7f7f7f", "ff0000", "00ff00", "ffff00", "5c5cff", "ff00ff",
     "00ffff", "ffffff"].getD i ""
  else if i < 232 then
    let j := i - 16
    toHexPad2 (colorCubeVal ((j / 36) % 6)) ++ toHexPad2 (colorCubeVal ((j / 6) % 6)) ++
      toHexPad2 (colorCubeVal (j % 6))
  else
    let v := 8 + (i - 232) * 10
    toHexPad2 v ++ toHexPad2 v ++ toHexPad2 v

/-! ### Data model from `screen.rs` -/

/-- Mirror of `screen::CharOpts`. -/
structure CharOpts where
  data : String
  fg : String
  bg : String
  bold : Bool
  italics : Bool
  underscore : Bool
  strikethrough : Bool
  reverse : Bool
  blink : Bool
deriving DecidableEq

/-- Mirror of `impl Default for CharOpts`. -/
def CharOpts.dflt : CharOpts :=
  { data := " ", fg := "default", bg := "default", bold := false, italics := false,
    underscore := false, strikethrough := false, reverse := false, blink := false }

/-- Mirror of `CharOpts::clone_with_data`. -/
def CharOpts.clone_with_data (c : CharOpts) (d : String) : CharOpts :=
  { c with data := d }

/-- Mirror of `screen::Cursor`. -/
structure Cursor where
  x : Nat
  y : Nat
  attr : CharOpts
  hidden : Bool
deriving DecidableEq

/-- Mirror of `screen::Margins`. -/
structure MarginsT where
  top : Nat
  bottom : Nat
deriving DecidableEq

/-- Mirror of `screen::Charset`. -/
inductive Charset where
  | G0
  | G1
deriving DecidableEq

/-- Mirror of `screen::Savepoint`. -/
structure Savepoint where
  cursor : Cursor
  g0_charset : Char → Char
  g1_charset : Char → Char
  charset : Charset
  origin : Bool
  wrap : Bool

/-- One sparse row of the grid: `HashMap<u32, CharOpts>`. -/
abbrev Row := List (Nat × CharOpts)

/-- Mirror of `screen::Screen`. -/
structure Screen where
  savepoints : List Savepoint
  columns : Nat
  lines : Nat
  dirty : List Nat
  margins : Option MarginsT
  buffer : List (Nat × Row)
  mode : List Nat
  title : String
  icon_name : String
  charset : Charset
  g0_charset : Char → Char
  g1_charset : Char → Char
  tabstops : List Nat
  cursor : Cursor
  saved_columns : Option Nat

/-- Mirror of `screen::_DEFAULT_MODE` = {DECAWM, DECTCEM}. -/
def default_mode : List Nat := [DECAWM, DECTCEM]

/-- Mirror of `Screen::default_char`. -/
def default_char (s : Screen) : CharOpts :=
  { CharOpts.dflt with reverse := setContains s.mode DECSCNM }

/-- Mirror of `Screen::ensure_hbounds`. -/
def ensure_hbounds (s : Screen) : Screen :=
  { s with cursor := { s.cursor with x := min (max 0 s.cursor.x) (s.columns - 1) } }

/-- Mirror of `Screen::ensure_vbounds`. -/
def ensure_vbounds (s : Screen) (use_margins : Option Bool) : Screen :=
  let p : Nat × Nat :=
    match s.margins, (use_margins.getD false || setContains s.mode DECOM : Bool) with
    | some m, true => (m.top, m.bottom)
    | _, _ => (0, s.lines - 1)
  { s with cursor := { s.cursor with y := min (max p.1 s.cursor.y) p.2 } }

/-- Mirror of `Screen::cursor_position` (CUP/HVP semantics; the source's i32
intermediates stay non-negative because a 0 argument is promoted to 1). -/
def cursor_position (s : Screen) (line? col? : Option Nat) : Screen :=
  let column := (match col? with | some a => if a = 0 then 1 else a | none => 1) - 1
  let line := (match line? with | some a => if a = 0 then 1 else a | none => 1) - 1
  match s.margins with
  | some m =>
    if setContains s.mode DECOM then
      let line := line + m.top
      if line < m.top ∨ m.bottom < line then s
      else ensure_vbounds (ensure_hbounds { s with cursor := { s.cursor with x := column, y := line } }) none
    else ensure_vbounds (ensure_hbounds { s with cursor := { s.cursor with x := column, y := line } }) none
  | none =>
    ensure_vbounds (ensure_hbounds { s with cursor := { s.cursor with x := column, y := line } }) none

/-- Tabstop initialization of `Screen::reset`: `(8..columns).step_by(8)`,
written as the ascending list of multiples of 8 below `columns`. -/
def tabstopsInit (columns : Nat) : List Nat :=
  (List.range columns).filter (fun x => decide (8 ≤ x) && decide (x % 8 = 0))

/-- Mirror of `Screen::reset` (also run by the constructor). -/
def reset (s : Screen) : Screen :=
  let s := { s with
    dirty := setExtend [] (List.range s.lines),
    buffer := [],
    margins := none,
    mode := default_mode,
    title := "",
    icon_name := "",
    charset := Charset.G0,
    g0_charset := LAT1_MAP,
    g1_charset := VT100_MAP,
    tabstops := tabstopsInit s.columns }
  let s := { s with cursor := { x := 0, y := 0, hidden := false, attr := default_char s } }
  let s := cursor_position s none none
  { s with saved_columns := none }

/-- Mirror of `Screen::new`. -/
def Screen.new (columns lines : Nat) : Screen :=
  reset
    { savepoints := [], columns := columns, lines := lines, dirty := [],
      margins := none, buffer := [], mode := default_mode, title := "",
      icon_name := "", charset := Charset.G0, g0_charset := LAT1_MAP,
      g1_charset := VT100_MAP, tabstops := [],
      cursor := { x := 0, y := 0, attr := CharOpts.dflt, hidden := false },
      saved_columns := none }

/-! ### Cursor motion (`screen.rs`) -/

/-- Mirror of `Screen::cursor_up`. -/
def cursor_up (s : Screen) (count? : Option Nat) : Screen :=
  let top := match s.margins with
    | some m => m.top
    | none => 0
  let count := count?.getD 1
  { s with cursor := { s.cursor with y := max (s.cursor.y - count) top } }

/-- Mirror of `Screen::cursor_down`. -/
def cursor_down (s : Screen) (count? : Option Nat) : Screen :=
  let bottom := match s.margins with
    | some m => m.bottom
    | none => s.lines - 1
  let count := count?.getD 1
  { s with cursor := { s.cursor with y := min (s.cursor.y + count) bottom } }

/-- Mirror of `Screen::cariage_return` (sic, the source's spelling). -/
def cariage_return (s : Screen) : Screen :=
  { s with cursor := { s.cursor with x := 0 } }

/-- Mirror of `Screen::cursor_down1`. -/
def cursor_down1 (s : Screen) (count? : Option Nat) : Screen :=
  cariage_return (cursor_down s count?)

/-- Mirror of `Screen::cursor_up1`. -/
def cursor_up1 (s : Screen) (count? : Option Nat) : Screen :=
  cariage_return (cursor_up s count?)

/-- Mirror of `Screen::cursor_forward`. -/
def cursor_forward (s : Screen) (count? : Option Nat) : Screen :=
  ensure_hbounds { s with cursor := { s.cursor with x := s.cursor.x + count?.getD 1 } }

/-- Mirror of `Screen::cursor_back`. -/
def cursor_back (s : Screen) (count? : Option Nat) : Screen :=
  let s := if s.cursor.x = s.columns
    then { s with cursor := { s.cursor with x := s.cursor.x - 1 } }
    else s
  let s := if count?.getD 1 ≤ s.cursor.x
    then { s with cursor := { s.cursor with x := s.cursor.x - count?.getD 1 } }
    else { s with cursor := { s.cursor with x := 0 } }
  ensure_hbounds s

/-- The release-profile wrap of a u32 decrement: `n - 1` with underflow
wrapping to 2^32 - 1 (a debug build would abort on the underflow instead). -/
def u32pred (n : Nat) : Nat :=
  (n + 4294967295) % 4294967296

/-- Mirror of `Screen::cursor_to_column`.  The source computes
`character.unwrap_or(1) - 1` on a u32, so an explicit argument of 0 wraps. -/
def cursor_to_column (s : Screen) (character : Option Nat) : Screen :=
  ensure_hbounds { s with cursor := { s.cursor with x := u32pred (character.getD 1) } }

/-- Mirror of `Screen::cursor_to_line` (same u32 wrap on an explicit 0). -/
def cursor_to_line (s : Screen) (line? : Option Nat) : Screen :=
  let s := { s with cursor := { s.cursor with y := u32pred (line?.getD 1) } }
  let s := if setContains s.mode DECOM then
      match s.margins with
      | some m => { s with cursor := { s.cursor with y := (s.cursor.y + m.top) % 4294967296 } }
      | none => s
    else s
  ensure_vbounds s none

/-! ### Tabs (`screen.rs`) -/

/-- Ascending insertion sort, mirroring `Vec::sort` on the tabstop list. -/
def insNat (x : Nat) : List Nat → List Nat
  | [] => [x]
  | y :: r => if x ≤ y then x :: y :: r else y :: insNat x r

/-- Sort a list of naturals ascending. -/
def sortNat (l : List Nat) : List Nat :=
  l.foldr insNat []

/-- The scan loop of `Screen::tab`: first sorted stop strictly greater than
the cursor column, or 0 when there is none. -/
def findFirstGreater : List Nat → Nat → Nat
  | [], _ => 0
  | t :: rest, x => if x < t then t else findFirstGreater rest x

/-- Mirror of `Screen::tab`. -/
def tabOp (s : Screen) : Screen :=
  let column := findFirstGreater (sortNat s.tabstops) s.cursor.x
  let column := if column = 0 then s.columns - 1 else column
  { s with cursor := { s.cursor with x := column } }

/-- Mirror of `Screen::set_tab_stop`. -/
def set_tab_stop (s : Screen) : Screen :=
  { s with tabstops := setInsert s.tabstops s.cursor.x }

/-- Mirror of `Screen::clear_tab_stop`. -/
def clear_tab_stop (s : Screen) (how? : Option Nat) : Screen :=
  match how?.getD 0 with
  | 0 => { s with tabstops := s.tabstops.filter (fun t => t ≠ s.cursor.x) }
  | 3 => { s with tabstops := [] }
  | _ => s

/-! ### Margins (`screen.rs`) -/

/-- Mirror of `Screen::set_margins` (the source computes on i32). -/
def set_margins (s : Screen) (top? bottom? : Option Nat) : Screen :=
  if top?.getD 0 = 0 ∧ bottom? = none then { s with margins := none }
  else
    let inner := s.margins.getD { top := 0, bottom := s.lines - 1 }
    let top : Int := match top? with
      | none => (inner.top : Int)
      | some t => max 0 (min ((t : Int) - 1) ((s.lines : Int) - 1))
    let bottom : Int := match bottom? with
      | none => (inner.bottom : Int)
      | some b => max 0 (min ((b : Int) - 1) ((s.lines : Int) - 1))
    if 1 ≤ bottom - top then
      cursor_position { s with margins := some { top := top.toNat, bottom := bottom.toNat } } none none
    else s

/-- The `margins.or(Some(Margins{top: 0, bottom: lines - 1}))` default used
by `index`, `insert_lines` and `delete_lines`. -/
def marginsOrDefault (s : Screen) : MarginsT :=
  s.margins.getD { top := 0, bottom := s.lines - 1 }

/-! ### Scrolling (`screen.rs`) -/

/-- One copy loop of the buffer rebuilds in `index` / `reverse_index`: for
each y in keys, if row (fsrc y) exists in src, insert it at key (ftgt y). -/
def copyRows (src : List (Nat × Row)) (keys : List Nat) (fsrc ftgt : Nat → Nat)
    (nb : List (Nat × Row)) : List (Nat × Row) :=
  keys.foldl (fun nb y =>
    match mapGet src (fsrc y) with
    | some line => mapInsert nb (ftgt y) line
    | none => nb) nb

/-- Mirror of `Screen::index`. -/
def index (s : Screen) : Screen :=
  let m := marginsOrDefault s
  if s.cursor.y = m.bottom then
    let s1 := { s with dirty := setExtend s.dirty (List.range s.lines) }
    let nb := copyRows s.buffer (List.range m.top) id id []
    let nb := copyRows s.buffer (List.range' m.top (m.bottom - m.top)) (fun y => y + 1) id nb
    let nb := mapInsert nb m.bottom []
    let nb := copyRows s.buffer (List.range' (m.bottom + 1) (s.lines - (m.bottom + 1))) id id nb
    { s1 with buffer := nb }
  else cursor_down s none

/-- Mirror of `Screen::reverse_index`. -/
def reverse_index (s : Screen) : Screen :=
  let p : Nat × Nat := match s.margins with
    | some m => (m.top, m.bottom)
    | none => (0, s.lines - 1)
  if s.cursor.y = p.1 then
    let s1 := { s with dirty := setExtend s.dirty (List.range s.lines) }
    let nb := copyRows s.buffer (List.range p.1) id id []
    let nb := copyRows s.buffer ((List.range' p.1 (p.2 + 1 - p.1)).reverse) id (fun y => y + 1) nb
    let nb := mapInsert nb p.1 []
    let nb := copyRows s.buffer (List.range' (p.2 + 1) (s.lines - (p.2 + 1))) id id nb
    { s1 with buffer := nb }
  else cursor_up s none

/-- Mirror of `Screen::linefeed`. -/
def linefeed (s : Screen) : Screen :=
  let s := index s
  if setContains s.mode LNM then cariage_return s else s

/-! ### Erasing and editing (`screen.rs`) -/

/-- Mirror of `Screen::insert_characters`.  The source calls
`buffer.get_mut(&cursor.y).expect(..)`: an absent row aborts, hence Option. -/
def insert_characters (s : Screen) (count? : Option Nat) : Option Screen :=
  let s := { s with dirty := setInsert s.dirty s.cursor.y }
  let count := count?.getD 1
  let dflt := default_char s
  match mapGet s.buffer s.cursor.y with
  | none => none
  | some line =>
    let line := ((List.range' s.cursor.x (s.columns + 1 - s.cursor.x)).reverse).foldl
      (fun ln x =>
        let ln := if x + count ≤ s.columns then
            match mapGet ln x with
            | some v => mapInsert ln (x + count) v
            | none => mapInsert ln (x + count) dflt
          else ln
        mapInsert ln x dflt) line
    some { s with buffer := mapInsert s.buffer s.cursor.y line }

/-- Mirror of `Screen::delete_characters` (total: the row access is guarded
by `if let`). -/
def delete_characters (s : Screen) (count? : Option Nat) : Screen :=
  let s := { s with dirty := setInsert s.dirty s.cursor.y }
  let count := match count? with
    | some a => if 0 < a then a else 1
    | none => 1
  let dflt := default_char s
  match mapGet s.buffer s.cursor.y with
  | none => s
  | some line =>
    let line := (List.range' s.cursor.x (s.columns - s.cursor.x)).foldl
      (fun ln x =>
        if x + count ≤ s.columns then
          match mapGet ln (x + count) with
          | some v => mapInsert (mapErase ln (x + count)) x v
          | none => mapInsert ln x dflt
        else mapErase ln x) line
    { s with buffer := mapInsert s.buffer s.cursor.y line }

/-- Mirror of `Screen::erase_characters` (total for the same reason). -/
def erase_characters (s : Screen) (count? : Option Nat) : Screen :=
  let s := { s with dirty := setInsert s.dirty s.cursor.y }
  let count := match count? with
    | some a => if 0 < a then a else 1
    | none => 1
  match mapGet s.buffer s.cursor.y with
  | none => s
  | some line =>
    let line := (List.range' s.cursor.x (min (s.cursor.x + count) s.columns - s.cursor.x)).foldl
      (fun ln x => mapInsert ln x s.cursor.attr) line
    { s with buffer := mapInsert s.buffer s.cursor.y line }

/-- Mirror of `Screen::erase_in_line`.  Two abort sources: an invalid `how`
hits an explicit `panic!`, and an absent cursor row hits `.expect`. -/
def erase_in_line (s : Screen) (how? : Option Nat) (_private : Option Bool) : Option Screen :=
  let s := { s with dirty := setInsert s.dirty s.cursor.y }
  let how := how?.getD 0
  let interval? : Option (List Nat) := match how with
    | 0 => some (List.range' s.cursor.x (s.columns - s.cursor.x))
    | 1 => some (List.range (s.cursor.x + 1))
    | 2 => some (List.range s.columns)
    | _ => none
  match interval? with
  | none => none
  | some interval =>
    match mapGet s.buffer s.cursor.y with
    | none => none
    | some line =>
      let line := interval.foldl (fun ln x => mapInsert ln x s.cursor.attr) line
      some { s with buffer := mapInsert s.buffer s.cursor.y line }

/-- Mirror of `Screen::erase_in_display`.  Every row of the interval is
fetched with `.expect`, so any absent row aborts; present rows are rewritten
only at keys `0 .. row.len()`, the length being read once up front. -/
def erase_in_display (s : Screen) (how? : Option Nat) (_private : Option Bool) : Option Screen :=
  let interval : List Nat := match how? with
    | some 0 => List.range' (s.cursor.y + 1) (s.lines - (s.cursor.y + 1))
    | some 1 => List.range s.cursor.y
    | some 2 => List.range s.lines
    | some 3 => List.range s.lines
    | _ => []
  let s := { s with dirty := setExtend s.dirty interval }
  let rec go (s : Screen) : List Nat → Option Screen
    | [] => some s
    | y :: ys =>
      match mapGet s.buffer y with
      | none => none
      | some line =>
        let line := (List.range line.length).foldl (fun ln x => mapInsert ln x s.cursor.attr) line
        go { s with buffer := mapInsert s.buffer y line } ys
  match go s interval with
  | none => none
  | some s =>
    if how? = some 0 ∨ how? = some 1 then erase_in_line s how? none else some s

/-- Mirror of `Screen::insert_lines`. -/
def insert_lines (s : Screen) (count? : Option Nat) : Screen :=
  let count := count?.getD 1
  let m := marginsOrDefault s
  if m.top ≤ s.cursor.y ∧ s.cursor.y ≤ m.bottom then
    let s := { s with dirty := setExtend s.dirty (List.range' s.cursor.y (s.lines - s.cursor.y)) }
    let s := ((List.range' s.cursor.y (m.bottom + 1 - s.cursor.y)).reverse).foldl
      (fun s y =>
        if y + count ≤ m.bottom then
          match mapGet s.buffer y with
          | some line => { s with buffer := mapInsert (mapErase s.buffer y) (y + count) line }
          | none => s
        else { s with buffer := mapErase s.buffer y }) s
    cariage_return s
  else s

/-- Mirror of `Screen::delete_lines`. -/
def delete_lines (s : Screen) (count? : Option Nat) : Screen :=
  let count := count?.getD 1
  let m := marginsOrDefault s
  if m.top ≤ s.cursor.y ∧ s.cursor.y ≤ m.bottom then
    let s := { s with dirty := setExtend s.dirty (List.range' s.cursor.y (s.lines - s.cursor.y)) }
    let s := (List.range' s.cursor.y (m.bottom + 1 - s.cursor.y)).foldl
      (fun s y =>
        if y + count ≤ m.bottom then
          match mapGet s.buffer (y + count) with
          | some line => { s with buffer := mapInsert (mapErase s.buffer (y + count)) y line }
          | none => s
        else { s with buffer := mapErase s.buffer y }) s
    cariage_return s
  else s

/-- Mirror of `Screen::alignment_display`. -/
def alignment_display (s : Screen) : Screen :=
  let s := { s with dirty := setExtend s.dirty (List.range s.lines) }
  (List.range s.lines).foldl (fun s y =>
    let row := (mapGet s.buffer y).getD []
    let row := (List.range s.columns).foldl (fun row x =>
      let co := (mapGet row x).getD CharOpts.dflt
      mapInsert row x { co with data := "E" }) row
    { s with buffer := mapInsert s.buffer y row }) s

/-- Mirror of `Screen::define_charset`. -/
def define_charset (s : Screen) (code mode : String) : Screen :=
  match MAPS code with
  | some t =>
    if mode = "(" then { s with g0_charset := t }
    else if mode = ")" then { s with g1_charset := t }
    else s
  | none => s

/-- Mirror of `Screen::write_process_input` (an empty body in the source). -/
def write_process_input (s : Screen) (_input : String) : Screen := s

/-- Mirror of `Screen::report_device_attributes`. -/
def report_device_attributes (s : Screen) (mode? : Option Nat) (private? : Option Bool) : Screen :=
  if mode?.getD 0 = 0 && !(private?.getD false) then write_process_input s "\x1B[?6c" else s

/-- Mirror of `Screen::save_cursor`. -/
def save_cursor (s : Screen) : Screen :=
  { s with savepoints :=
      { cursor := s.cursor, g0_charset := s.g0_charset, g1_charset := s.g1_charset,
        charset := s.charset, origin := setContains s.mode DECOM,
        wrap := setContains s.mode DECAWM } :: s.savepoints }

/-! ### SGR (`screen.rs`) -/

/-- The `replace` HashMap of `select_graphic_rendition`, keyed by the nine
field names; key collisions overwrite, unknown keys are never produced by
the source and are dropped by `update_from_map` anyway. -/
structure Replace where
  data : Option String := none
  fg : Option String := none
  bg : Option String := none
  bold : Option String := none
  italics : Option String := none
  underscore : Option String := none
  strikethrough : Option String := none
  reverse : Option String := none
  blink : Option String := none

/-- Insertion by field-name key, mirroring `replace.insert(key, value)`. -/
def rIns (r : Replace) (k v : String) : Replace :=
  if k = "data" then { r with data := some v }
  else if k = "fg" then { r with fg := some v }
  else if k = "bg" then { r with bg := some v }
  else if k = "bold" then { r with bold := some v }
  else if k = "italics" then { r with italics := some v }
  else if k = "underscore" then { r with underscore := some v }
  else if k = "strikethrough" then { r with strikethrough := some v }
  else if k = "reverse" then { r with reverse := some v }
  else if k = "blink" then { r with blink := some v }
  else r

/-- Rust `bool::to_string`. -/
def boolToString (b : Bool) : String :=
  if b then "true" else "false"

/-- Mirror of `CharOpts::to_map` feeding `replace.extend(..)` in the
SGR-0 branch: every one of the nine keys becomes present. -/
def rExtendAll (_r : Replace) (c : CharOpts) : Replace :=
  { data := some c.data, fg := some c.fg, bg := some c.bg,
    bold := some (boolToString c.bold), italics := some (boolToString c.italics),
    underscore := some (boolToString c.underscore),
    strikethrough := some (boolToString c.strikethrough),
    reverse := some (boolToString c.reverse), blink := some (boolToString c.blink) }

/-- Rust `str::parse::<bool>().unwrap_or(false)`. -/
def parseBoolD (v : String) : Bool :=
  v = "true"

/-- Mirror of `CharOpts::update_from_map` (fields are independent, so the
HashMap iteration order of the source is immaterial). -/
def update_from_map (c : CharOpts) (r : Replace) : CharOpts :=
  { data := r.data.getD c.data,
    fg := r.fg.getD c.fg,
    bg := r.bg.getD c.bg,
    bold := match r.bold with | some v => parseBoolD v | none => c.bold,
    italics := match r.italics with | some v => parseBoolD v | none => c.italics,
    underscore := match r.underscore with | some v => parseBoolD v | none => c.underscore,
    strikethrough := match r.strikethrough with | some v => parseBoolD v | none => c.strikethrough,
    reverse := match r.reverse with | some v => parseBoolD v | none => c.reverse,
    blink := match r.blink with | some v => parseBoolD v | none => c.blink }

/-- The parameter loop of `Screen::select_graphic_rendition`: the source
reverses the list and pops from the back, which processes parameters in
their original order; the 38/48 sub-sequences consume further parameters. -/
def sgrProcess (dflt : CharOpts) : List Nat → Replace → Replace
  | [], r => r
  | a :: rest, r =>
    if a = 0 then sgrProcess dflt rest (rExtendAll r dflt)
    else match fgAnsi a, bgAnsi a, textTable a, fgAix a, bgAix a with
    | some v, _, _, _, _ => sgrProcess dflt rest (rIns r "fg" v)
    | none, some v, _, _, _ => sgrProcess dflt rest (rIns r "bg" v)
    | none, none, some t, _, _ =>
      sgrProcess dflt rest (rIns r (t.drop 1) (boolToString (t.startsWith "+")))
    | none, none, none, some v, _ => sgrProcess dflt rest (rIns r "fg" v)
    | none, none, none, none, some v => sgrProcess dflt rest (rIns r "bg" v)
    | none, none, none, none, none =>
      if a = 38 ∨ a = 48 then
        let key := if a = 38 then "fg" else "bg"
        match rest with
        | [] => r
        | n :: rest2 =>
          if n = 5 then
            match rest2 with
            | [] => r
            | m :: rest3 =>
              if m < 16 then sgrProcess dflt rest3 (rIns r key (fgBg256 m))
              else sgrProcess dflt rest3 r
          else if n = 2 then
            match rest2 with
            | rr :: gg :: bb :: rest4 =>
              sgrProcess dflt rest4 (rIns r key (toHexPad2 rr ++ toHexPad2 gg ++ toHexPad2 bb))
            | _ => r
          else sgrProcess dflt rest2 r
      else sgrProcess dflt rest r
termination_by l _ => l.length
decreasing_by all_goals (simp_all; try omega)

/-- Mirror of `Screen::select_graphic_rendition`. -/
def select_graphic_rendition (s : Screen) (attrs : List Nat) : Screen :=
  if attrs = [] ∨ attrs = [0] then
    { s with cursor := { s.cursor with attr := default_char s } }
  else
    let r := sgrProcess (default_char s) attrs {}
    { s with cursor := { s.cursor with attr := update_from_map s.cursor.attr r } }

/-- The DECSCNM walk of `set_mode` / `reset_mode`: force the reverse flag of
every stored cell. -/
def reverseAll (b : List (Nat × Row)) (v : Bool) : List (Nat × Row) :=
  b.map (fun r => (r.1, r.2.map (fun cc => (cc.1, { cc.2 with reverse := v }))))

/-! ### The `set_mode` / `reset_mode` / `resize` / `restore_cursor` knot

In the source these four recurse through one another (`set_mode` with
DECCOLM calls `resize`, `resize` on shrink calls `restore_cursor`,
`restore_cursor` re-applies saved modes through `set_mode`).  The dynamic
recursion depth is bounded (the inner `set_mode` calls never carry DECCOLM),
so the knot is rendered with an explicit fuel argument; the top-level
wrappers supply more fuel than any reachable chain consumes, and fuel
exhaustion would surface as `none`, never as a fabricated result. -/

mutual

/-- Mirror of `Screen::resize` (fuelled, see the section comment). -/
def resizeF (fuel : Nat) (s : Screen) (lines? columns? : Option Nat) : Option Screen :=
  if _h : fuel = 0 then none else
    let lines := lines?.getD s.lines
    let columns := columns?.getD s.columns
    if lines = s.lines ∧ columns = s.columns then some s
    else
      let s1 := { s with dirty := setExtend s.dirty (List.range lines) }
      let s2? : Option Screen :=
        if lines < s1.lines then
          let sa := save_cursor s1
          let sb := cursor_position sa (some 0) (some 0)
          let sc := delete_lines sb (some (s1.lines - lines))
          restore_cursorF (fuel - 1) sc
        else some s1
      match s2? with
      | none => none
      | some s2 =>
        let s3 := if columns < s2.columns then
            { s2 with buffer := s2.buffer.map (fun r =>
                (r.1, r.2.filter (fun cc => !(columns ≤ cc.1 && cc.1 < s2.columns)))) }
          else s2
        let s4 := { s3 with lines := lines, columns := columns }
        some (set_margins s4 none none)
termination_by fuel
decreasing_by all_goals omega

/-- Mirror of `Screen::set_mode` (fuelled; the `dbg!` tracing of the source
is a no-op).  Option: the DECCOLM branch runs `erase_in_display`, which can
abort on an absent row. -/
def set_modeF (fuel : Nat) (s : Screen) (modes : List Nat) (priv : Bool) : Option Screen :=
  if _h : fuel = 0 then none else
    let mode_list := if priv then modes.map (fun m => (m * 32) % 4294967296) else modes
    let s1 := if priv && mode_list.contains DECSCNM then
        { s with dirty := setExtend s.dirty (List.range s.lines) }
      else s
    let s2 := { s1 with mode := setExtend s1.mode mode_list }
    let s3? : Option Screen :=
      if mode_list.contains DECCOLM then
        let sa := { s2 with saved_columns := some s2.columns }
        match resizeF (fuel - 1) sa none (some 132) with
        | none => none
        | some sb =>
          match erase_in_display sb (some 2) none with
          | none => none
          | some sc => some (cursor_position sc none none)
      else some s2
    match s3? with
    | none => none
    | some s3 =>
      let s4 := if mode_list.contains DECOM then cursor_position s3 none none else s3
      let s5 := if mode_list.contains DECSCNM then
          select_graphic_rendition { s4 with buffer := reverseAll s4.buffer true } [7]
        else s4
      let s6 := if mode_list.contains DECTCEM then
          { s5 with cursor := { s5.cursor with hidden := false } }
        else s5
      some s6
termination_by fuel
decreasing_by all_goals omega

/-- Mirror of `Screen::reset_mode` (fuelled, same shape as `set_mode`). -/
def reset_modeF (fuel : Nat) (s : Screen) (modes : List Nat) (priv : Bool) : Option Screen :=
  if _h : fuel = 0 then none else
    let mode_list := if priv then modes.map (fun m => (m * 32) % 4294967296) else modes
    let s1 := if priv && mode_list.contains DECSCNM then
        { s with dirty := setExtend s.dirty (List.range s.lines) }
      else s
    let s2 := { s1 with mode := s1.mode.filter (fun x => !(mode_list.contains x)) }
    let s3? : Option Screen :=
      if mode_list.contains DECCOLM then
        let sa? : Option Screen :=
          if s2.columns = 132 then
            match s2.saved_columns with
            | some sc => (resizeF (fuel - 1) s2 none (some sc)).map
                (fun t => { t with saved_columns := none })
            | none => some s2
          else some s2
        match sa? with
        | none => none
        | some sa =>
          match erase_in_display sa (some 2) none with
          | none => none
          | some sb => some (cursor_position sb none none)
      else some s2
    match s3? with
    | none => none
    | some s3 =>
      let s4 := if mode_list.contains DECOM then cursor_position s3 none none else s3
      let s5 := if mode_list.contains DECSCNM then
          select_graphic_rendition { s4 with buffer := reverseAll s4.buffer false } [27]
        else s4
      let s6 := if mode_list.contains DECTCEM then
          { s5 with cursor := { s5.cursor with hidden := true } }
        else s5
      some s6
termination_by fuel
decreasing_by all_goals omega

/-- Mirror of `Screen::restore_cursor` (fuelled). -/
def restore_cursorF (fuel : Nat) (s : Screen) : Option Screen :=
  if _h : fuel = 0 then none else
    match s.savepoints with
    | sp :: rest =>
      let s1 := { s with savepoints := rest, g0_charset := sp.g0_charset,
                         g1_charset := sp.g1_charset, charset := sp.charset }
      let s2? := if sp.origin then set_modeF (fuel - 1) s1 [DECOM] false else some s1
      match s2? with
      | none => none
      | some s2 =>
        let s3? := if sp.wrap then set_modeF (fuel - 1) s2 [DECAWM] false else some s2
        match s3? with
        | none => none
        | some s3 =>
          let s4 := { s3 with cursor := sp.cursor }
          some (ensure_vbounds (ensure_hbounds s4) (some true))
    | [] =>
      match reset_modeF (fuel - 1) s [DECOM] false with
      | none => none
      | some s1 => some (cursor_position s1 none none)
termination_by fuel
decreasing_by all_goals omega

end

/-- Fuel that no reachable call chain of the knot exhausts. -/
def RFUEL : Nat := 8

/-- `Screen::set_mode` at standard fuel. -/
def set_mode (s : Screen) (modes : List Nat) (priv : Bool) : Option Screen :=
  set_modeF RFUEL s modes priv

/-- `Screen::reset_mode` at standard fuel. -/
def reset_mode (s : Screen) (modes : List Nat) (priv : Bool) : Option Screen :=
  reset_modeF RFUEL s modes priv

/-- `Screen::resize` at standard fuel. -/
def resize (s : Screen) (lines? columns? : Option Nat) : Option Screen :=
  resizeF RFUEL s lines? columns?

/-- `Screen::restore_cursor` at standard fuel. -/
def restore_cursor (s : Screen) : Option Screen :=
  restore_cursorF RFUEL s

/-! ### Drawing (`screen.rs`) -/

/-- The per-code-point charset translation at the top of `Screen::draw`. -/
def translateChar (s : Screen) (c : Char) : Char :=
  match s.charset with
  | Charset.G1 => if 255 < c.toNat then c else s.g1_charset c
  | Charset.G0 => if 255 < c.toNat then c else s.g0_charset c

/-- The character loop of `Screen::draw`.  Option: with IRM set the loop
calls `insert_characters`, whose `.expect` aborts on an absent row.  An
unprintable character breaks out of the loop, dropping the rest. -/
def drawLoop (s : Screen) : List Char → Option Screen
  | [] => some s
  | c :: rest =>
    let cw := (charWidthOpt c).getD 0
    let s1 :=
      if s.cursor.x = s.columns then
        if setContains s.mode DECAWM then
          linefeed (cariage_return { s with dirty := setInsert s.dirty s.cursor.y })
        else if 0 < cw then
          { s with cursor := { s.cursor with x := s.cursor.x - cw } }
        else s
      else s
    let s2? := if setContains s1.mode IRM && decide (0 < cw)
      then insert_characters s1 (some cw) else some s1
    match s2? with
    | none => none
    | some s2 =>
      let row := (mapGet s2.buffer s2.cursor.y).getD []
      let sE := { s2 with buffer := mapInsert s2.buffer s2.cursor.y row }
      if cw = 1 then
        let row := mapInsert row sE.cursor.x (sE.cursor.attr.clone_with_data c.toString)
        let s3 := { sE with buffer := mapInsert sE.buffer sE.cursor.y row }
        let s4 := { s3 with cursor := { s3.cursor with x := min (s3.cursor.x + cw) s3.columns } }
        drawLoop s4 rest
      else if cw = 2 then
        let row := mapInsert row sE.cursor.x (sE.cursor.attr.clone_with_data c.toString)
        let row := if sE.cursor.x + 1 < sE.columns then
            mapInsert row (sE.cursor.x + 1) (sE.cursor.attr.clone_with_data "")
          else row
        let s3 := { sE with buffer := mapInsert sE.buffer sE.cursor.y row }
        let s4 := { s3 with cursor := { s3.cursor with x := min (s3.cursor.x + cw) s3.columns } }
        drawLoop s4 rest
      else if cw = 0 && isCombiningMark c then
        let s3 :=
          if 0 < sE.cursor.x then
            match mapGet row (sE.cursor.x - 1) with
            | some last =>
              let row := mapInsert row (sE.cursor.x - 1)
                { last with data := nfcStr last.data ++ c.toString }
              { sE with buffer := mapInsert sE.buffer sE.cursor.y row }
            | none => sE
          else if 0 < sE.cursor.y then
            match (mapGet sE.buffer (sE.cursor.y - 1)).bind (fun r => mapGet r (sE.columns - 1)) with
            | some last =>
              let prow := (mapGet sE.buffer (sE.cursor.y - 1)).getD []
              let prow := mapInsert prow (sE.columns - 1)
                { last with data := nfcStr last.data ++ c.toString }
              { sE with buffer := mapInsert sE.buffer (sE.cursor.y - 1) prow }
            | none => sE
          else sE
        drawLoop s3 rest
      else
        some sE

/-- Mirror of `Screen::draw`. -/
def draw (s : Screen) (data : String) : Option Screen :=
  let translated := data.data.map (translateChar s)
  (drawLoop s translated).map (fun t => { t with dirty := setInsert t.dirty t.cursor.y })

/-! ### `display` (`screen.rs`) -/

/-- The per-row rendering loop of `Screen::display`.  Option: the source
calls `.chars().next().expect(..)` on the cell data, which aborts on a cell
holding the empty string (the hidden twin of a double-width character when
its head has been overwritten). -/
def renderRowAux (dflt : CharOpts) (line : Row) : List Nat → Bool → String → Option String
  | [], _, acc => some acc
  | x :: xs, wide, acc =>
    if wide then renderRowAux dflt line xs false acc
    else
      let data := ((mapGet line x).getD dflt).data
      match data.data.head? with
      | none => none
      | some first =>
        renderRowAux dflt line xs (charWidthOpt first == some 2) (acc ++ data)

/-- Mirror of `Screen::display`.  The source's `entry(..).or_insert`
materializes default cells into the buffer while rendering; that mutation is
unobservable to every claim (display is the final observation there), so the
model reads with defaults instead. -/
def display (s : Screen) : Option (List String) :=
  let dflt := default_char s
  (List.range s.lines).mapM (fun y =>
    renderRowAux dflt ((mapGet s.buffer y).getD []) (List.range s.columns) false "")

/-- Display width of a rendered string: the sum of the code-point widths
(the notion of width the spec's well-formedness property refers to). -/
def strWidth (str : String) : Nat :=
  (str.data.map (fun c => (charWidthOpt c).getD 0)).sum

/-! ### Control constants (`control.rs`) -/

def belChar : Char := Char.ofNat 7
def bsChar : Char := Char.ofNat 8
def htChar : Char := Char.ofNat 9
def lfChar : Char := Char.ofNat 10
def vtChar : Char := Char.ofNat 11
def ffChar : Char := Char.ofNat 12
def crChar : Char := Char.ofNat 13
def soChar : Char := Char.ofNat 14
def siChar : Char := Char.ofNat 15
def canChar : Char := Char.ofNat 0x18
def subChar : Char := Char.ofNat 0x1A
def escChar : Char := Char.ofNat 0x1B
def csiChar : Char := Char.ofNat 0x9B

/-- The C1 ST code point 0x9C.  It appears in `control.rs` only as the
second character of the two-character `ST_C0 = "\u{001B}\u{009C}"`.  The
one-character `ST` constant of `control.rs` is NOT this code point: it is
`ascii!(5/12)`, i.e. the byte (5 shl 4) + 12 = 0x5C, the backslash ---
despite the adjacent comment claiming the 0x9C bit pattern.  The source's
OSC terminator set is therefore {BEL, ESC 0x9C, backslash}. -/
def stChar : Char := Char.ofNat 0x9C

/-- The one-character `control::ST` as the source actually computes it:
the backslash (see `stChar`). -/
def stBackslash : Char := Char.ofNat 0x5C

def oscChar : Char := Char.ofNat 0x9D

/-- Mirror of `control::BASIC`. -/
def basicChars : List Char :=
  [belChar, bsChar, htChar, lfChar, vtChar, ffChar, crChar, soChar, siChar]

/-- Mirror of `control::ALLOWED_IN_CSI` (BASIC minus SO and SI). -/
def allowedInCsi : List Char :=
  [belChar, bsChar, htChar, lfChar, vtChar, ffChar, crChar]

/-! ### Listener events and the default dispatchers (`parser_listener.rs`)

The parser's transitions depend only on the incoming code points (never on
the listener's replies), so the coroutine factors into a pure event-emitting
state machine plus an event application function; applying the events in
emission order reproduces the synchronous listener calls of the source. -/

/-- One listener call emitted by the parser. -/
inductive PEvent where
  | draw (c : Char)
  | basic (c : Char)
  | escape (c : Char)
  | csi (fin : Char) (params : List Nat) (priv : Bool)
  | setIconName (s : String)
  | setTitle (s : String)
  | alignment
deriving DecidableEq

/-- Mirror of `ParserListener::basic_dispatch` on a `Screen` listener. -/
def basic_dispatch (s : Screen) (c : Char) : Screen :=
  if c = belChar then s
  else if c = bsChar then cursor_back s none
  else if c = htChar then tabOp s
  else if c = lfChar ∨ c = vtChar ∨ c = ffChar then linefeed s
  else if c = crChar then cariage_return s
  else if c = soChar then { s with charset := Charset.G1 }
  else if c = siChar then { s with charset := Charset.G0 }
  else s

/-- Mirror of `ParserListener::escape_dispatch` on a `Screen` listener
(final bytes per `control.rs`: RIS = c, IND = D, NEL = E, RI = M, HTS = H,
DECSC = 7, DECRC = 8; anything else only logs). -/
def escape_dispatch (s : Screen) (c : Char) : Option Screen :=
  if c = 'c' then some (reset s)
  else if c = 'D' then some (index s)
  else if c = 'E' then some (linefeed s)
  else if c = 'M' then some (reverse_index s)
  else if c = 'H' then some (set_tab_stop s)
  else if c = '7' then some (save_cursor s)
  else if c = '8' then restore_cursor s
  else some s

/-- Mirror of `ParserListener::csi_dispatch` on a `Screen` listener (final
bytes per `control.rs`). -/
def csi_dispatch (s : Screen) (f : Char) (params : List Nat) (priv : Bool) : Option Screen :=
  if f = '@' then insert_characters s params.head?
  else if f = 'B' then some (cursor_down s params.head?)
  else if f = 'A' then some (cursor_up s params.head?)
  else if f = 'C' then some (cursor_forward s params.head?)
  else if f = 'D' then some (cursor_back s params.head?)
  else if f = 'E' then some (cursor_down1 s params.head?)
  else if f = 'F' then some (cursor_up1 s params.head?)
  else if f = 'G' then some (cursor_to_column s params.head?)
  else if f = 'H' then
    some (if params = [] then cursor_position s none none
          else if params.length = 1 then cursor_position s params.head? none
          else cursor_position s params.head? (params.get? 1))
  else if f = 'J' then erase_in_display s params.head? none
  else if f = 'K' then erase_in_line s params.head? none
  else if f = 'L' then some (insert_lines s params.head?)
  else if f = 'M' then some (delete_lines s params.head?)
  else if f = 'P' then some (delete_characters s params.head?)
  else if f = 'X' then some (erase_characters s params.head?)
  else if f = 'a' then some (cursor_forward s params.head?)
  else if f = 'c' then some (report_device_attributes s params.head? none)
  else if f = 'd' then some (cursor_to_line s params.head?)
  else if f = 'e' then some (cursor_down s params.head?)
  else if f = 'f' then some (cursor_position s params.head? (params.get? 1))
  else if f = 'g' then some (clear_tab_stop s params.head?)
  else if f = 'h' then set_mode s params priv
  else if f = 'l' then reset_mode s params priv
  else if f = 'm' then some (select_graphic_rendition s params)
  else if f = 'r' then some (set_margins s params.head? (params.get? 1))
  else some s

/-- Apply one emitted event to the screen listener. -/
def applyEvent (s : Screen) : PEvent → Option Screen
  | PEvent.draw c => draw s c.toString
  | PEvent.basic c => some (basic_dispatch s c)
  | PEvent.escape c => escape_dispatch s c
  | PEvent.csi f p priv => csi_dispatch s f p priv
  | PEvent.setIconName t => some { s with icon_name := t }
  | PEvent.setTitle t => some { s with title := t }
  | PEvent.alignment => some (alignment_display s)

/-! ### The escape-sequence state machine (`parser.rs`)

The source is a resumable generator; its yield points become the states
below.  `ground` is the generator parked at its top-of-loop yield, which
coincides with `taking_plain_text == true` in `Parser::feed` (every path
back to the top yields `Some(true)`), so the fast-path draw of `feed` is the
ground-state draw here. -/

/-- Parser state: one constructor per yield point, carrying the live locals
of the enclosing loop. -/
inductive PMode where
  | ground
  | escape
  | escapeSharp
  | escapeCharset
  | csi (params : List Nat) (priv : Bool) (current : List Char)
  | csiDollar
  | oscCode
  | oscParam (code : Char) (param : List Char)
  | oscEsc (code : Char) (param : List Char)
deriving DecidableEq

/-- Digit-string value for the CSI parameter accumulator. -/
def natFromDigits (ds : List Char) : Nat :=
  ds.foldl (fun a c => a * 10 + (c.toNat - 48)) 0

def U64MAX : Nat := 18446744073709551615

/-- Mirror of the parameter finalization in the CSI loop:
`current.parse::<u64>()` with errors (empty string, u64 overflow) collapsing
to 0, then `u64::min(.., 9999)`. -/
def clampParam (ds : List Char) : Nat :=
  if ds = [] then 0
  else
    let v := natFromDigits ds
    if v ≤ U64MAX then min v 9999 else 0

/-- The events emitted when an OSC string terminates: skip the first
accumulated char (the `;`), `take` up to the byte length minus one exactly
as the source does, then fire icon-name and/or title according to the code
(`"01".contains` / `"02".contains` on the one-char code). -/
def oscFinish (code : Char) (param : List Char) : List PEvent :=
  let byteLen := (param.map Char.utf8Size).sum
  let pm := (param.drop 1).take (byteLen - 1)
  (if code = '0' ∨ code = '1' then [PEvent.setIconName (String.mk pm)] else [])
    ++ (if code = '0' ∨ code = '2' then [PEvent.setTitle (String.mk pm)] else [])

/-- One step of the parser on one code point: next state plus the listener
events fired during the step, in call order. -/
def stepP (u : Bool) (m : PMode) (c : Char) : PMode × List PEvent :=
  match m with
  | PMode.ground =>
    if c = escChar then (PMode.escape, [])
    else if basicChars.contains c then
      if (c = siChar ∨ c = soChar) ∧ u then (PMode.ground, [])
      else (PMode.ground, [PEvent.basic c])
    else if c = csiChar then (PMode.csi [] false [], [])
    else if c = oscChar then (PMode.oscCode, [])
    else (PMode.ground, [PEvent.draw c])
  | PMode.escape =>
    if c = '[' then (PMode.csi [] false [], [])
    else if c = ']' then (PMode.oscCode, [])
    else if c = '#' then (PMode.escapeSharp, [])
    else if c = '%' then (PMode.ground, [])
    else if c = '(' ∨ c = ')' then (PMode.escapeCharset, [])
    else (PMode.ground, [PEvent.escape c])
  | PMode.escapeSharp =>
    if c = '8' then (PMode.ground, [PEvent.alignment])
    else (PMode.ground, [])
  | PMode.escapeCharset => (PMode.ground, [])
  | PMode.csi params priv current =>
    if c = '?' then (PMode.csi params true current, [])
    else if allowedInCsi.contains c then (PMode.csi params priv current, [PEvent.basic c])
    else if c = ' ' ∨ c = '>' then (PMode.csi params priv current, [])
    else if c = canChar ∨ c = subChar then (PMode.ground, [PEvent.draw c])
    else if c.isDigit then (PMode.csi params priv (current ++ [c]), [])
    else if c = '$' then (PMode.csiDollar, [])
    else
      let params2 := params ++ [clampParam current]
      if c = ';' then (PMode.csi params2 priv [], [])
      else (PMode.ground, [PEvent.csi c params2 priv])
  | PMode.csiDollar => (PMode.ground, [])
  | PMode.oscCode =>
    if c = 'R' ∨ c = 'p' then (PMode.ground, [])
    else (PMode.oscParam c [], [])
  | PMode.oscParam code param =>
    if c = escChar then (PMode.oscEsc code param, [])
    else if c = belChar ∨ c = stBackslash then (PMode.ground, oscFinish code param)
    else (PMode.oscParam code (param ++ [c]), [])
  | PMode.oscEsc code param =>
    if c = stChar then (PMode.ground, oscFinish code param)
    else (PMode.oscParam code (param ++ [escChar]), [])

/-- Run the parser over a list of code points, collecting emitted events. -/
def parseRun (u : Bool) (m : PMode) (cs : List Char) : PMode × List PEvent :=
  cs.foldl (fun acc c =>
    let r := stepP u acc.1 c
    (r.1, acc.2 ++ r.2)) (m, [])

/-- One code point through `Parser::feed` with a `Screen` listener: step the
state machine, apply the fired events synchronously.  None models a listener
abort. -/
def feedOne (u : Bool) (ms : PMode × Screen) (c : Char) : Option (PMode × Screen) :=
  let r := stepP u ms.1 c
  (r.2.foldlM applyEvent ms.2).map (fun scr => (r.1, scr))

/-- Mirror of `Parser::feed` over a decoded code-point sequence. -/
def feedChars (u : Bool) (ms : PMode × Screen) (cs : List Char) : Option (PMode × Screen) :=
  cs.foldlM (feedOne u) ms

/-! ### Byte layer (`byte_parser.rs`) -/

/-- Modelled from the encoding_rs crate (an external dependency):
non-streaming WHATWG UTF-8 decoding with U+FFFD replacement for malformed
input, as performed by `decode_with_bom_removal` on the assembled byte
buffer.  Rendered as a byte-at-a-time state machine (pending continuation
count, accumulated scalar value, and the admissible range of the next
continuation byte, which encodes the E0/ED/F0/F4 special cases); a
malformed byte emits one replacement character and is re-examined as a
fresh lead byte, and a truncated final sequence emits one replacement
character.  Claims exercise it on plain ASCII, where it is the identity. -/
structure U8St where
  need : Nat
  acc : Nat
  lo : Nat
  hi : Nat

/-- The ground state of the UTF-8 decoder (no pending sequence). -/
def u8ground : U8St := { need := 0, acc := 0, lo := 0, hi := 0 }

/-- Handle one byte in the ground state. -/
def u8start (b : Nat) : List Char × U8St :=
  if b < 0x80 then ([Char.ofNat b], u8ground)
  else if 0xC2 ≤ b ∧ b ≤ 0xDF then
    ([], { need := 1, acc := b - 0xC0, lo := 0x80, hi := 0xBF })
  else if 0xE0 ≤ b ∧ b ≤ 0xEF then
    ([], { need := 2, acc := b - 0xE0,
           lo := if b = 0xE0 then 0xA0 else 0x80,
           hi := if b = 0xED then 0x9F else 0xBF })
  else if 0xF0 ≤ b ∧ b ≤ 0xF4 then
    ([], { need := 3, acc := b - 0xF0,
           lo := if b = 0xF0 then 0x90 else 0x80,
           hi := if b = 0xF4 then 0x8F else 0xBF })
  else ([Char.ofNat 0xFFFD], u8ground)

/-- Handle one byte in an arbitrary decoder state. -/
def u8step (st : U8St) (b : Nat) : List Char × U8St :=
  if st.need = 0 then u8start b
  else if st.lo ≤ b ∧ b ≤ st.hi then
    let acc := st.acc * 64 + (b - 0x80)
    if st.need = 1 then ([Char.ofNat acc], u8ground)
    else ([], { need := st.need - 1, acc := acc, lo := 0x80, hi := 0xBF })
  else
    let r := u8start b
    (Char.ofNat 0xFFFD :: r.1, r.2)

/-- Run the decoder; a pending sequence at end of input is malformed. -/
def u8run : U8St → List Nat → List Char
  | st, [] => if st.need = 0 then [] else [Char.ofNat 0xFFFD]
  | st, b :: rest =>
    let r := u8step st b
    r.1 ++ u8run r.2 rest

/-- WHATWG UTF-8 decode with replacement of a whole byte list. -/
def utf8Decode (l : List Nat) : List Char :=
  u8run u8ground l

/-- BOM stripping of `decode_with_bom_removal` (UTF-8 BOM only). -/
def decodeWithBomRemoval (bytes : List Nat) : List Char :=
  let bytes := if bytes.take 3 = [0xEF, 0xBB, 0xBF] then bytes.drop 3 else bytes
  utf8Decode bytes

/-- UTF-8 byte length of a decoded string (`Cow::len` on the owned str). -/
def utf8LenChars (cs : List Char) : Nat :=
  (cs.map Char.utf8Size).sum

/-- State of a `ByteParser` around its inner `Parser` and `Screen`. -/
structure BPState where
  useUtf8 : Bool
  incomplete : List Nat
  pmode : PMode
  screen : Screen

/-- Mirror of `ByteParser::feed`.  In UTF-8 mode the source prepends the
stashed bytes, decodes the whole buffer, and then sets
`incomplete = bytes[cow.len() - 1 ..]` where `cow.len()` is the byte length
of the decoded string; that slice aborts when the decoded string is longer
than the input (replacement expansion), hence Option. -/
def byteFeed (st : BPState) (data : List Nat) : Option BPState :=
  if st.useUtf8 then
    let bytes := st.incomplete ++ data
    let cow := decodeWithBomRemoval bytes
    let cowLen := utf8LenChars cow
    let inc? : Option (List Nat) :=
      if cowLen = 0 then some []
      else if cowLen - 1 ≤ bytes.length then some (bytes.drop (cowLen - 1))
      else none
    match inc? with
    | none => none
    | some inc =>
      (feedChars st.useUtf8 (st.pmode, st.screen) cow).map
        (fun p => { st with incomplete := inc, pmode := p.1, screen := p.2 })
  else
    let cow := data.map (fun b => Char.ofNat b)
    (feedChars st.useUtf8 (st.pmode, st.screen) cow).map
      (fun p => { st with pmode := p.1, screen := p.2 })

/-- A fresh `ByteParser` wrapped around `Screen::new(columns, lines)`
(`ParserState { use_utf8: true }`, empty stash, generator parked at top). -/
def BPState.new (columns lines : Nat) : BPState :=
  { useUtf8 := true, incomplete := [], pmode := PMode.ground,
    screen := Screen.new columns lines }

/-! ### Concrete states used by the witnesses and counterexamples below -/

/-- A cell holding an `x`, used to build sparse buffers by hand. -/
def xCell : CharOpts := { CharOpts.dflt with data := "x" }

/-- A 2 by 2 screen whose row 0 stores a single cell at column 1 and whose
row 1 is present but empty: witness buffer for the erase-in-display claims. -/
def sSparse : Screen :=
  { Screen.new 2 2 with buffer := [(0, [(1, xCell)]), (1, [])] }

/-- A 2 by 2 screen resting in the wrap-pending state `x = columns`. -/
def sWrapPending2 : Screen :=
  { Screen.new 2 2 with cursor := { (Screen.new 2 2).cursor with x := 2 } }

/-- A 3 by 3 screen resting in the wrap-pending state `x = columns`. -/
def sWrapPending3 : Screen :=
  { Screen.new 3 3 with cursor := { (Screen.new 3 3).cursor with x := 3 } }

/-- A 2-column, 3-line screen with the cursor on the last line and two
sparse rows, exercising the scroll of `index`. -/
def sScroll : Screen :=
  { Screen.new 2 3 with
    cursor := { (Screen.new 2 3).cursor with y := 2 },
    buffer := [(0, [(0, xCell)]), (2, [(1, xCell)])] }

/-- U+0301 COMBINING ACUTE ACCENT, the zero-width code point of claim C8. -/
def combiningMark : Char := Char.ofNat 0x301

/-! ## Lemmas about the association-list maps -/

theorem mapGet_insert_self {β : Type} (m : List (Nat × β)) (k : Nat) (v : β) :
    mapGet (mapInsert m k v) k = some v := by
  simp [mapInsert, mapGet]

theorem mapGet_erase_ne {β : Type} (m : List (Nat × β)) (k k' : Nat) (h : k' ≠ k) :
    mapGet (mapErase m k) k' = mapGet m k' := by
  induction m with
  | nil => rfl
  | cons p t ih =>
    simp only [mapErase]
    by_cases hp : p.1 = k
    · rw [if_pos hp, ih]
      have hne : ¬ p.1 = k' := fun e => h (e.symm.trans hp)
      simp [mapGet, hne]
    · rw [if_neg hp]
      by_cases hq : p.1 = k' <;> simp [mapGet, hq, ih]

theorem mapGet_insert_ne {β : Type} (m : List (Nat × β)) (k : Nat) (v : β) (k' : Nat)
    (h : k' ≠ k) : mapGet (mapInsert m k v) k' = mapGet m k' := by
  show (if k = k' then some v else mapGet (mapErase m k) k') = mapGet m k'
  rw [if_neg fun e => h e.symm, mapGet_erase_ne m k k' h]

theorem copyRows_cons (src : List (Nat × Row)) (a : Nat) (t : List Nat)
    (fsrc ftgt : Nat → Nat) (nb : List (Nat × Row)) :
    copyRows src (a :: t) fsrc ftgt nb
      = copyRows src t fsrc ftgt
          (match mapGet src (fsrc a) with
           | some line => mapInsert nb (ftgt a) line
           | none => nb) := rfl

theorem copyRows_get_notmem (src : List (Nat × Row)) (keys : List Nat)
    (fsrc : Nat → Nat) (nb : List (Nat × Row)) (k : Nat) (h : k ∉ keys) :
    mapGet (copyRows src keys fsrc id nb) k = mapGet nb k := by
  induction keys generalizing nb with
  | nil => rfl
  | cons a t ih =>
    have hka : k ≠ a := fun e => h (e ▸ List.mem_cons_self a t)
    have hkt : k ∉ t := fun e => h (List.mem_cons_of_mem a e)
    rw [copyRows_cons, ih _ hkt]
    cases hsrc : mapGet src (fsrc a) with
    | none => rfl
    | some line => exact mapGet_insert_ne _ _ _ _ hka

theorem copyRows_get_mem (src : List (Nat × Row)) (keys : List Nat)
    (fsrc : Nat → Nat) (nb : List (Nat × Row)) (k : Nat)
    (hnd : keys.Nodup) (hk : k ∈ keys) (h0 : mapGet nb k = none) :
    mapGet (copyRows src keys fsrc id nb) k = mapGet src (fsrc k) := by
  induction keys generalizing nb with
  | nil => cases hk
  | cons a t ih =>
    rw [copyRows_cons]
    rcases List.mem_cons.mp hk with rfl | hkt
    · have hkt : k ∉ t := (List.nodup_cons.mp hnd).1
      rw [copyRows_get_notmem _ _ _ _ _ hkt]
      cases hsrc : mapGet src (fsrc k) with
      | some line => exact mapGet_insert_self _ _ _
      | none => exact h0
    · have hna : k ≠ a := fun e => (List.nodup_cons.mp hnd).1 (e ▸ hkt)
      refine ih _ (List.nodup_cons.mp hnd).2 hkt ?_
      cases hsrc : mapGet src (fsrc a) with
      | none => exact h0
      | some line =>
        show mapGet (mapInsert nb a line) k = none
        rw [mapGet_insert_ne _ _ _ _ hna]
        exact h0

theorem setInsert_of_contains (s : List Nat) (x : Nat) (h : s.contains x = true) :
    setInsert s x = s := by
  unfold setInsert
  rw [if_pos h]

/-! ## The claims -/

/-- C1.  The claim says no byte sequence aborts processing; in particular
erase_in_line / erase_in_display with the touched rows absent from the
sparse buffer must not abort, and cursor_to_column(0) must not abort.  The
code violates this: on a fresh 2-by-2 screen (whose buffer is empty after
reset), feeding `ESC [ K` aborts inside erase_in_line at
`buffer.get_mut(&cursor.y).expect("can not retrieve line")`, and feeding
`ESC [ 2 J` aborts the same way inside erase_in_display; this theorem
evaluates both pipelines to the abort.  The third conjunct evaluates
cursor_to_column(0) under the release profile: the u32 `0 - 1` wraps and
the cursor clamps to the last column (a debug build would abort on that
underflow as well). -/
theorem c1_feed_aborts :
    feedChars true (PMode.ground, Screen.new 2 2) [escChar, '[', 'K'] = none
  ∧ feedChars true (PMode.ground, Screen.new 2 2) [escChar, '[', '2', 'J'] = none
  ∧ (cursor_to_column (Screen.new 2 2) (some 0)).cursor.x = 1 :=
  ⟨rfl, rfl, rfl⟩

/-- C2.  The claim says display() always returns exactly `lines` strings of
display-width `columns`, including after a double-width character at the
last column or a narrow character overwriting the head of a double-width
pair.  The code violates both named cases: feeding "ab中" to a 3-by-3
screen leaves row 0 rendering at display-width 4 (the wide head is stored
at the last column without its hidden twin), and feeding "中", CR, "x"
leaves the twin cell holding the empty string, on which display() aborts at
`.chars().next().expect("can not read char")`. -/
theorem c2_display_wellformedness_fails :
    (feedChars true (PMode.ground, Screen.new 3 3) ['a', 'b', '中']).map
        (fun p => (display p.2).map (fun r => (r.length, r.map strWidth)))
      = some (some (3, [4, 3, 3]))
  ∧ (feedChars true (PMode.ground, Screen.new 3 3) ['中', crChar, 'x']).map
        (fun p => display p.2)
      = some none
  ∧ (4 : Nat) ≠ 3 :=
  ⟨rfl, rfl, by decide⟩

/-- C3.  The claim says feeding a byte sequence in chunks yields the same
final display() as feeding it whole.  The code violates this for plain
ASCII already: ByteParser::feed stores `bytes[cow.len() - 1 ..]` as the
"incomplete" stash, so after feed([a, b]) the byte b is stashed and
re-delivered by the next feed.  On a 3-by-3 screen, feed([a, b]) then
feed([c]) renders ["abb", "c  ", "   "], while feed([a, b, c]) renders
["abc", "   ", "   "]. -/
theorem c3_chunked_feed_differs :
    ((byteFeed (BPState.new 3 3) [97, 98]).bind (fun t => byteFeed t [99])).map
        (fun t => display t.screen)
      = some (some ["abb", "c  ", "   "])
  ∧ (byteFeed (BPState.new 3 3) [97, 98, 99]).map (fun t => display t.screen)
      = some (some ["abc", "   ", "   "])
  ∧ (["abb", "c  ", "   "] : List String) ≠ ["abc", "   ", "   "] :=
  ⟨rfl, rfl, by decide⟩

/-- C4, counterexample.  The claim as stated quantifies over every screen
state, "any cursor" included.  At the wrap-pending state x = columns
(reachable by drawing into the last column), restore_cursor clamps the
restored x through ensure_hbounds: on a 2-column screen with x = 2,
save_cursor immediately followed by restore_cursor yields x = 1, not the
pre-save x = 2. -/
theorem c4_counterexample :
    (restore_cursor (save_cursor sWrapPending2)).map (fun t => t.cursor.x) = some 1
  ∧ sWrapPending2.cursor.x = 2 := by
  refine ⟨?_, rfl⟩
  simp [restore_cursor, RFUEL, restore_cursorF, set_modeF, save_cursor, sWrapPending2,
    Screen.new, reset, cursor_position, ensure_hbounds, ensure_vbounds, default_mode,
    setContains, DECOM, DECAWM, DECSCNM, DECCOLM, DECTCEM, setExtend, setInsert]

/-- C4, amended.  Provided the cursor respects the bounds restore_cursor
re-imposes (x at most columns - 1, and y within the scrolling region when
margins are set, else y at most lines - 1), save_cursor immediately
followed by restore_cursor restores the entire screen state exactly --- in
particular the cursor, G0, G1, the active charset, and the DECOM and DECAWM
mode bits.  When x = columns (wrap pending) the restored x is clamped to
columns - 1 instead. -/
theorem c4_save_restore_roundtrip (s : Screen)
    (hx : s.cursor.x ≤ s.columns - 1)
    (hy1 : ∀ m, s.margins = some m → m.top ≤ s.cursor.y ∧ s.cursor.y ≤ m.bottom)
    (hy2 : s.margins = none → s.cursor.y ≤ s.lines - 1) :
    restore_cursor (save_cursor s) = some s := by
  have hminx : s.cursor.x ⊓ (s.columns - 1) = s.cursor.x := by omega
  by_cases hD : (192 : Nat) ∈ s.mode <;> by_cases hW : (224 : Nat) ∈ s.mode <;>
    rcases hM : s.margins with _ | m
  all_goals first
  | (have hminy : s.cursor.y ⊓ (s.lines - 1) = s.cursor.y := by
       have := hy2 hM; omega
     simp [restore_cursor, RFUEL, restore_cursorF, save_cursor, set_modeF, hD, hW, hM,
       setContains, DECOM, DECAWM, DECSCNM, DECCOLM, DECTCEM, setExtend, setInsert,
       ensure_hbounds, ensure_vbounds, cursor_position, hminx, hminy]
     rw [← hM])
  | (obtain ⟨h1, h2⟩ := hy1 m hM
     have hminy : (m.top ⊔ s.cursor.y) ⊓ m.bottom = s.cursor.y := by omega
     have hc2 : ¬(m.bottom < m.top) := by omega
     simp [restore_cursor, RFUEL, restore_cursorF, save_cursor, set_modeF, hD, hW, hM,
       setContains, DECOM, DECAWM, DECSCNM, DECCOLM, DECTCEM, setExtend, setInsert,
       ensure_hbounds, ensure_vbounds, cursor_position, hminx, hminy, hc2]
     rw [← hM])

/-- C4, witness: the roundtrip theorem applied to a fresh 2-by-2 screen. -/
theorem c4_witness :
    restore_cursor (save_cursor (Screen.new 2 2)) = some (Screen.new 2 2) :=
  c4_save_restore_roundtrip (Screen.new 2 2) (by decide)
    (fun m hm => Option.noConfusion ((rfl : (Screen.new 2 2).margins = none) ▸ hm))
    (fun _ => by decide)

/-- C5.  For every screen whose cursor sits at the bottom margin, index()
scrolls the region: rows [top, bottom - 1] become the pre-call rows
[top + 1, bottom] (as sparse rows, absent exactly when the source row was
absent), row bottom becomes an empty (hence all-default) row, and every row
outside [top, bottom] is unchanged. -/
theorem c5_index_scrolls (s : Screen) (top bottom : Nat)
    (hm : marginsOrDefault s = { top := top, bottom := bottom })
    (htb : top ≤ bottom)
    (hy : s.cursor.y = bottom)
    (hbl : bottom < s.lines) :
    (∀ y, top ≤ y → y < bottom → mapGet (index s).buffer y = mapGet s.buffer (y + 1))
  ∧ mapGet (index s).buffer bottom = some []
  ∧ (∀ y, y < s.lines → (y < top ∨ bottom < y) → mapGet (index s).buffer y = mapGet s.buffer y) := by
  have hbuf : (index s).buffer =
      copyRows s.buffer (List.range' (bottom + 1) (s.lines - (bottom + 1))) id id
        (mapInsert
          (copyRows s.buffer (List.range' top (bottom - top)) (fun y => y + 1) id
            (copyRows s.buffer (List.range top) id id []))
          bottom []) := by
    simp [index, hm, hy]
  refine ⟨?_, ?_, ?_⟩
  · intro y h1 h2
    rw [hbuf]
    rw [copyRows_get_notmem _ _ _ _ _ (by simp [List.mem_range'_1]; omega)]
    rw [mapGet_insert_ne _ _ _ _ (by omega)]
    rw [copyRows_get_mem _ _ _ _ _ (List.nodup_range' _ _) (by simp [List.mem_range'_1]; omega)
        (by rw [copyRows_get_notmem _ _ _ _ _ (by simp [List.mem_range]; omega)]; rfl)]
  · rw [hbuf]
    rw [copyRows_get_notmem _ _ _ _ _ (by simp [List.mem_range'_1])]
    exact mapGet_insert_self _ _ _
  · intro y hyl hside
    rw [hbuf]
    rcases hside with hlt | hgt
    · rw [copyRows_get_notmem _ _ _ _ _ (by simp [List.mem_range'_1]; omega)]
      rw [mapGet_insert_ne _ _ _ _ (by omega)]
      rw [copyRows_get_notmem _ _ _ _ _ (by simp [List.mem_range'_1]; omega)]
      rw [copyRows_get_mem _ _ _ _ _ (List.nodup_range _) (by simp [List.mem_range]; omega)
        (show mapGet ([] : List (Nat × Row)) y = none from rfl)]
      rfl
    · rw [copyRows_get_mem _ _ _ _ _ (List.nodup_range' _ _) (by simp [List.mem_range'_1]; omega)
        (by rw [mapGet_insert_ne _ _ _ _ (by omega)]
            rw [copyRows_get_notmem _ _ _ _ _ (by simp [List.mem_range'_1]; omega)]
            rw [copyRows_get_notmem _ _ _ _ _ (by simp [List.mem_range]; omega)]
            rfl)]
      rfl

/-- C5, witness: the scroll theorem applied to the concrete 2-column,
3-line screen sScroll (margins unset, cursor on the last line): row 1 after
index equals the old row 2, and the bottom row becomes the empty row. -/
theorem c5_witness :
    mapGet (index sScroll).buffer 1 = mapGet sScroll.buffer 2
  ∧ mapGet (index sScroll).buffer 2 = some [] :=
  have h := c5_index_scrolls sScroll 0 2 (by decide) (by decide) (by decide) (by decide)
  ⟨h.1 1 (Nat.zero_le 1) (by decide), h.2.1⟩

/-- C6.  The claim says erase_in_display with how = 2 or 3 erases the
complete display to the cursor template, whatever rows and columns the
sparse buffer holds.  The code violates this twice: a present row is only
rewritten at keys 0 .. row.len() - 1 (so a cell stored at a higher column
survives), and an absent row aborts at `.expect("can not retrieve line")`.
On sSparse (row 0 holding only column 1 = "x", row 1 present but empty),
erase_in_display(2) leaves cell (0, 1) holding "x" while the template data
is a blank; on a fresh 2-by-2 screen (all rows absent) it aborts. -/
theorem c6_erase_in_display_incomplete :
    (erase_in_display sSparse (some 2) none).map
        (fun t => (mapGet t.buffer 0).bind (fun r => (mapGet r 1).map (fun cc => cc.data)))
      = some (some "x")
  ∧ sSparse.cursor.attr.data = " "
  ∧ ("x" : String) ≠ " "
  ∧ erase_in_display (Screen.new 2 2) (some 2) none = none :=
  ⟨rfl, rfl, by decide, rfl⟩

/-- C7.  The claim says any string s free of OSC terminators (no BEL, no
ESC-backslash pair, no C1 ST), delivered via ESC ] 2 ; s ST, lands verbatim
in the title.  The code violates this because its terminator set is not the
claimed one: `control.rs` computes its one-character `ST` as `ascii!(5/12)`
= 0x5C, the backslash, contradicting the constant's own doc comment
("String Terminator (01001_1100)" = 0x9C), so the set recognised by the OSC
loop is {BEL, ESC 0x9C, backslash}.  Consequences evaluated here: (i)
closing with the claimed C1 ST terminator 0x9C never fires set_title - the
0x9C is swallowed into the still-accumulating parameter and the title stays
empty; (ii) what actually terminates a plain OSC string is a lone
backslash; (iii) even via the working ESC 0x9C terminator, a terminator-free
s containing a lone ESC is truncated, because after an ESC the parser reads
one more character to test the two-character terminator and on failure
pushes only the ESC, dropping that character: s = "a ESC b" yields the
title "a ESC". -/
theorem c7_osc_st_mismatch :
    (feedChars true (PMode.ground, Screen.new 80 24)
        [escChar, ']', '2', ';', 'f', 'o', 'o', stChar]).map (fun p => (p.1, p.2.title))
      = some (PMode.oscParam '2' [';', 'f', 'o', 'o', stChar], "")
  ∧ ("" : String) ≠ "foo"
  ∧ (feedChars true (PMode.ground, Screen.new 80 24)
        [escChar, ']', '2', ';', 'f', 'o', 'o', stBackslash]).map (fun p => p.2.title)
      = some "foo"
  ∧ (feedChars true (PMode.ground, Screen.new 80 24)
        [escChar, ']', '2', ';', 'a', escChar, 'b', escChar, stChar]).map (fun p => p.2.title)
      = some "a\x1B"
  ∧ ("a\x1B" : String) ≠ "a\x1Bb" :=
  ⟨rfl, by decide, rfl, rfl, by decide⟩

/-- C8, counterexample.  The claim as stated says that with DECAWM set a
zero-width code point does not trigger the pending wrap.  On a 3-by-3
screen resting at x = columns with default modes (DECAWM set), drawing
U+0301 COMBINING ACUTE ACCENT moves the cursor to (0, 1): the code performs
the carriage-return + linefeed for every code point, width zero included. -/
theorem c8_counterexample :
    (draw sWrapPending3 combiningMark.toString).map (fun t => (t.cursor.x, t.cursor.y))
      = some (0, 1)
  ∧ sWrapPending3.cursor.y = 0 :=
  ⟨rfl, rfl⟩

/-- Projections of `index` that the wrap-composition argument needs: the
scroll-or-cursor-down of `index` never touches cursor.x, columns or the
charset registers. -/
theorem index_proj (t : Screen) :
    (index t).cursor.x = t.cursor.x ∧ (index t).columns = t.columns
  ∧ (index t).charset = t.charset ∧ (index t).g0_charset = t.g0_charset
  ∧ (index t).g1_charset = t.g1_charset := by
  by_cases h : t.cursor.y = (marginsOrDefault t).bottom
  · simp [index, cursor_down, h]
  · simp [index, cursor_down, h]

/-- `linefeed` of a screen already at column zero stays at column zero and
keeps columns and the charset registers. -/
theorem linefeed_proj (t : Screen) (h : t.cursor.x = 0) :
    (linefeed t).cursor.x = 0 ∧ (linefeed t).columns = t.columns
  ∧ (linefeed t).charset = t.charset ∧ (linefeed t).g0_charset = t.g0_charset
  ∧ (linefeed t).g1_charset = t.g1_charset := by
  have hi := index_proj t
  by_cases hl : setContains (index t).mode LNM = true
  · simp [linefeed, hl, cariage_return, hi.1, hi.2.1, hi.2.2.1, hi.2.2.2.1, hi.2.2.2.2, h]
  · simp [linefeed, hl, hi.1, hi.2.1, hi.2.2.1, hi.2.2.2.1, hi.2.2.2.2, h]

/-- One step of `drawLoop` in the wrap-pending state with DECAWM set equals
starting from the carriage-returned, linefed screen, provided the linefeed
does not land back in the wrap-pending state. -/
theorem drawLoop_cons_wrap (t : Screen) (tc : Char) (rest : List Char)
    (hx : t.cursor.x = t.columns) (hAW : setContains t.mode DECAWM = true)
    (h1 : ¬((linefeed (cariage_return { t with dirty := setInsert t.dirty t.cursor.y })).cursor.x
            = (linefeed (cariage_return { t with dirty := setInsert t.dirty t.cursor.y })).columns)) :
    drawLoop t (tc :: rest)
      = drawLoop (linefeed (cariage_return { t with dirty := setInsert t.dirty t.cursor.y }))
          (tc :: rest) := by
  conv_lhs => rw [drawLoop]
  conv_rhs => rw [drawLoop]
  simp only [hx, hAW, if_pos rfl, if_true, if_neg h1]

/-- One step of `drawLoop` in the wrap-pending state with DECAWM unset on a
positive-width character equals starting from the screen backed up by that
width. -/
theorem drawLoop_cons_backup (t : Screen) (tc : Char) (rest : List Char)
    (hx : t.cursor.x = t.columns) (hAW : setContains t.mode DECAWM = false)
    (hw : 0 < (charWidthOpt tc).getD 0)
    (hne : ¬(t.cursor.x - (charWidthOpt tc).getD 0 = t.columns)) :
    drawLoop t (tc :: rest)
      = drawLoop { t with cursor := { t.cursor with x := t.cursor.x - (charWidthOpt tc).getD 0 } }
          (tc :: rest) := by
  have hne2 : ¬(t.columns - (charWidthOpt tc).getD 0 = t.columns) := by
    omega
  conv_lhs => rw [drawLoop]
  conv_rhs => rw [drawLoop]
  simp only [hx, hAW, if_pos rfl, hw, if_true, Bool.false_eq_true, if_false, if_neg hne2]

/-- C8, amended.  When `draw` runs with cursor.x = columns: if DECAWM is
set, the carriage-return plus linefeed happens for every code point
regardless of its post-translation width, zero width included, scrolling at
the bottom margin through the linefeed; if DECAWM is unset, a code point of
positive post-translation width backs the cursor up by that width, and a
zero-width code point leaves the cursor exactly where it was. -/
theorem c8_wrap_pending_draw (s : Screen) (c : Char)
    (hx : s.cursor.x = s.columns)
    (hcols : 1 ≤ s.columns) :
    ((224 : Nat) ∈ s.mode →
      draw s c.toString
        = draw (linefeed (cariage_return { s with dirty := setInsert s.dirty s.cursor.y }))
            c.toString)
  ∧ ((224 : Nat) ∉ s.mode → 0 < (charWidthOpt (translateChar s c)).getD 0 →
      draw s c.toString
        = draw { s with cursor :=
              { s.cursor with x := s.cursor.x - (charWidthOpt (translateChar s c)).getD 0 } }
            c.toString)
  ∧ ((224 : Nat) ∉ s.mode → (charWidthOpt (translateChar s c)).getD 0 = 0 →
      (draw s c.toString).map (fun t => t.cursor) = some s.cursor) := by
  refine ⟨?_, ?_, ?_⟩
  · intro hAW
    have hq := linefeed_proj (cariage_return { s with dirty := setInsert s.dirty s.cursor.y }) rfl
    have hx1 : (linefeed (cariage_return { s with dirty := setInsert s.dirty s.cursor.y })).cursor.x = 0 := hq.1
    have hc1 : (linefeed (cariage_return { s with dirty := setInsert s.dirty s.cursor.y })).columns = s.columns := hq.2.1
    have h1 : ¬((linefeed (cariage_return { s with dirty := setInsert s.dirty s.cursor.y })).cursor.x
          = (linefeed (cariage_return { s with dirty := setInsert s.dirty s.cursor.y })).columns) := by
      rw [hx1, hc1]; omega
    have hAWb : setContains s.mode DECAWM = true := by
      simp [setContains, DECAWM, hAW]
    have htr : translateChar (linefeed (cariage_return { s with dirty := setInsert s.dirty s.cursor.y })) c
        = translateChar s c := by
      unfold translateChar
      rw [hq.2.2.1, hq.2.2.2.1, hq.2.2.2.2]
      rfl
    unfold draw
    simp only [Char.toString, String.data, List.map, htr]
    rw [drawLoop_cons_wrap s (translateChar s c) [] hx hAWb h1]
  · intro hAW hw
    have hAWb : setContains s.mode DECAWM = false := by
      simp [setContains, DECAWM, hAW]
    have hne : ¬(s.cursor.x - (charWidthOpt (translateChar s c)).getD 0 = s.columns) := by
      omega
    unfold draw
    simp only [Char.toString, String.data, List.map]
    rw [drawLoop_cons_backup s (translateChar s c) [] hx hAWb hw hne]
    rfl
  · intro hAW hw0
    have hAWb : setContains s.mode DECAWM = false := by
      simp [setContains, DECAWM, hAW]
    have hxpos : 0 < s.cursor.x := by omega
    simp [draw, drawLoop, hx, hAWb, hw0, setContains, DECAWM, IRM, setInsert, hxpos, hAW]
    (repeat' split) <;> simp

/-- C8, witness: the amended theorem applied to the wrap-pending 3-by-3
screen (DECAWM in the default mode set) and the width-one character z. -/
theorem c8_witness :
    draw sWrapPending3 (Char.toString 'z')
      = draw (linefeed (cariage_return
          { sWrapPending3 with dirty := setInsert sWrapPending3.dirty sWrapPending3.cursor.y }))
          (Char.toString 'z') :=
  (c8_wrap_pending_draw sWrapPending3 'z' (by decide) (by decide)).1 (by decide)

/-- C9.  The claim says every CSI digit string, those exceeding u64
included, is clamped to [0, 9999]; the spec's error table says overflow
clamps to 9999.  The code parses each digit string as u64 and maps a parse
failure to 0, so the concrete sequence ESC [ 999999999;999999999 H indeed
dispatches cursor_position [9999, 9999], but the 2^64 digit string
18446744073709551616 dispatches 0, not the clamp min(2^64, 9999) = 9999. -/
theorem c9_param_overflow_dispatches_zero :
    (parseRun true PMode.ground ("\x1B[999999999;999999999H".data)).2
      = [PEvent.csi 'H' [9999, 9999] false]
  ∧ (parseRun true PMode.ground ("\x1B[18446744073709551616H".data)).2
      = [PEvent.csi 'H' [0] false]
  ∧ (0 : Nat) ≠ min 18446744073709551616 9999 :=
  ⟨rfl, rfl, by decide⟩

/-- C10.  For delete_characters and erase_characters, an explicit count of
0 behaves exactly like a count of 1 and like an absent count: both map the
argument through `if a > 0 { a } else { 1 }` / `unwrap_or(1)` before any
use, so the resulting screens are equal for every starting state. -/
theorem c10_zero_count_equals_one (s : Screen) :
    delete_characters s (some 0) = delete_characters s (some 1)
  ∧ delete_characters s (some 0) = delete_characters s none
  ∧ erase_characters s (some 0) = erase_characters s (some 1)
  ∧ erase_characters s (some 0) = erase_characters s none :=
  ⟨rfl, rfl, rfl, rfl⟩

end Memterm
